import Mathlib

/-!
Verification of the background HTTP file server manager (http_server.py).

The embedding is shallow: each Python function of the manager is translated
into a Lean function over explicit models of the kernel state it reads.

Modelling conventions, stated once:
its lines are represented after whitespace splitting, so a table file is a
list of lines and each line is a list of column tokens (the source applies
line.split() to every line; the split is modelled at the input boundary).
Numeric parsing models the plain-digit forms that occur in the kernel
tables: a decimal parser accepting nonempty all-digit strings (matching
name.isdigit() followed by int(name)) and a hexadecimal parser accepting
nonempty hex-digit strings; exotic int() inputs (signs, underscores,
embedded whitespace) never occur in the modelled tables and are mapped to
parse failure.  A read that the source wraps in try/except is modelled as
an Option (none = the exception was raised); the one exception the source
does NOT catch, StopIteration from next(f) on a zero-line table file, is
made explicit by letting discovery return Except Unit.
-/

namespace HttpServer

/-! ## Character-level string helpers (executable, kernel-friendly) -/

/-- Is the first list a prefix of the second (needle, haystack). -/
def charsPre : List Char → List Char → Bool
  | [], _ => true
  | _ :: _, [] => false
  | a :: as, b :: bs => a == b && charsPre as bs

/-- Does the needle occur as a contiguous run inside the haystack. -/
def charsContain (needle : List Char) : List Char → Bool
  | [] => needle.isEmpty
  | b :: bs => charsPre needle (b :: bs) || charsContain needle bs

/-- Python's (needle in haystack) on strings. -/
def strContains (needle hay : String) : Bool :=
  charsContain needle.toList hay.toList

/-- Python's haystack.startswith(needle). -/
def strStarts (needle hay : String) : Bool :=
  charsPre needle.toList hay.toList

/-- Split a character list on a separator character; always nonempty,
    "a:b" gives [[a],[b]] and "" gives [[]], matching str.split(sep). -/
def splitCols (sep : Char) : List Char → List (List Char)
  | [] => [[]]
  | c :: cs =>
    let r := splitCols sep cs
    if c == sep then [] :: r
    else
      match r with
      | [] => [[c]]
      | g :: gs => (c :: g) :: gs

def digitVal (c : Char) : Option Nat :=
  if '0' ≤ c ∧ c ≤ '9' then some (c.toNat - 48) else none

def decAux : Nat → List Char → Option Nat
  | acc, [] => some acc
  | acc, c :: cs =>
    match digitVal c with
    | some d => decAux (acc * 10 + d) cs
    | none => none

/-- Decimal parse of a nonempty all-digit character list; models
    s.isdigit() combined with int(s). -/
def parseDecList : List Char → Option Nat
  | [] => none
  | c :: cs => decAux 0 (c :: cs)

def parseDec (s : String) : Option Nat := parseDecList s.toList

def hexVal (c : Char) : Option Nat :=
  if '0' ≤ c ∧ c ≤ '9' then some (c.toNat - 48)
  else if 'a' ≤ c ∧ c ≤ 'f' then some (c.toNat - 87)
  else if 'A' ≤ c ∧ c ≤ 'F' then some (c.toNat - 55)
  else none

def hexAux : Nat → List Char → Option Nat
  | acc, [] => some acc
  | acc, c :: cs =>
    match hexVal c with
    | some d => hexAux (acc * 16 + d) cs
    | none => none

/-- Hexadecimal parse of a nonempty hex-digit list; models int(s, 16)
    on the port column. -/
def parseHexList : List Char → Option Nat
  | [] => none
  | c :: cs => hexAux 0 (c :: cs)

/-! ## Data model of the kernel state read by discovery -/

/-- The tool's own program identifier looked for in command lines. -/
def progName : String := "http_server.py"

def DEFAULT_PORT : Nat := 8000

/-- One file descriptor entry of /proc/PID/fd: the readlink target, or
    none when os.readlink raised OSError. -/
structure FdEntry where
  target : Option String
deriving Repr

/-- One directory entry of /proc.  cmdline is the NUL-split, decoded token
    list of /proc/PID/cmdline (none: the read raised); fds is the listing
    of /proc/PID/fd (none: iterating the directory raised). -/
structure ProcEntry where
  name : String
  cmdline : Option (List String)
  fds : Option (List FdEntry)
deriving Repr

/-- Kernel state consumed by discover_servers: the two socket tables
    (none = FileNotFoundError or PermissionError on open; some lines =
    the file's lines, header included, each line already column-split)
    and the /proc directory listing. -/
structure World where
  tcp : Option (List (List String))
  tcp6 : Option (List (List String))
  procs : List ProcEntry

/-! ## Socket Table Reader -/

/-- Parse one data row of /proc/net/tcp{,6} to (inode, port): at least 10
    columns, state column equal to 0A (listening), local address of the
    form ADDR:PORTHEX with a hex port, decimal inode.  Any failure gives
    none (the source skips the row via continue). -/
def parseRow (parts : List String) : Option (Nat × Nat) :=
  if parts.length < 10 then none
  else
    let localA := parts.getD 1 ""
    let st := parts.getD 3 ""
    let inode := parts.getD 9 ""
    if st ≠ "0A" then none
    else
      match splitCols ':' localA.toList with
      | [_ip, phex] =>
        match parseHexList phex, parseDecList inode.toList with
        | some port, some inodeN => some (inodeN, port)
        | _, _ => none
      | _ => none

/-- Fold the data rows of one table into the inode map.  The map is an
    association list where a later write is consed to the front, so
    List.lookup sees the most recent write (Python dict overwrite). -/
def tableFold (m : List (Nat × Nat)) (rows : List (List String)) : List (Nat × Nat) :=
  rows.foldl
    (fun acc r =>
      match parseRow r with
      | some ip => ip :: acc
      | none => acc)
    m

/-- Read one table file.  A missing or permission-denied file is caught
    and skipped (ok with the map unchanged).  A present but zero-line file
    makes next(f) raise StopIteration, which the source does not catch:
    error.  Otherwise the header line is dropped and the rows folded. -/
def readTable (m : List (Nat × Nat)) : Option (List (List String)) → Except Unit (List (Nat × Nat))
  | none => .ok m
  | some [] => .error ()
  | some (_header :: rows) => .ok (tableFold m rows)

/-- Both tables, /proc/net/tcp then /proc/net/tcp6. -/
def readTables (w : World) : Except Unit (List (Nat × Nat)) := do
  let m1 ← readTable [] w.tcp
  readTable m1 w.tcp6

/-! ## Process Scanner -/

/-- Inode encoded in a symlink target of the form socket:[N] - the source
    checks only the startswith and strips the last character, so the
    closing bracket itself is not verified. -/
def sockInode (t : String) : Option Nat :=
  if strStarts "socket:[" t then parseDecList ((t.toList.drop 8).dropLast)
  else none

/-- Port contributed by one fd entry: readlink succeeded, target is a
    socket reference, its inode is in the map, and the mapped port is
    truthy (the source tests the looked-up value with if port, so the
    value 0 is rejected exactly like a missed lookup). -/
def fdPort (m : List (Nat × Nat)) (fd : FdEntry) : Option Nat :=
  match fd.target with
  | none => none
  | some t =>
    match sockInode t with
    | none => none
    | some i =>
      match List.lookup i m with
      | some p => if p ≠ 0 then some p else none
      | none => none

/-- seen.add(p) on the per-process port set, modelled as a duplicate-free
    list in first-seen order (the set's iteration order is erased by the
    final global sort). -/
def addSeen (seen : List Nat) (p : Nat) : List Nat :=
  if seen.contains p then seen else seen ++ [p]

def fdStep (m : List (Nat × Nat)) (seen : List Nat) (fd : FdEntry) : List Nat :=
  match fdPort m fd with
  | some p => addSeen seen p
  | none => seen

def seenPorts (m : List (Nat × Nat)) (fds : List FdEntry) : List Nat :=
  fds.foldl (fdStep m) []

/-- any token of the command line contains the program identifier -/
def cmdMatches (toks : List String) : Bool :=
  toks.any (fun t => strContains progName t)

/-- (pid, port) pairs contributed by one /proc entry: numeric name,
    readable matching command line, readable fd listing, one pair per
    port in the seen set. -/
def scanProc (m : List (Nat × Nat)) (e : ProcEntry) : List (Nat × Nat) :=
  match parseDec e.name with
  | none => []
  | some pid =>
    match e.cmdline with
    | none => []
    | some toks =>
      if cmdMatches toks then
        match e.fds with
        | none => []
        | some fds => (seenPorts m fds).map (fun p => (pid, p))
      else []

/-- Python's sorted() on (pid, port) pairs: lexicographic order. -/
def pairLe (a b : Nat × Nat) : Prop :=
  a.1 < b.1 ∨ (a.1 = b.1 ∧ a.2 ≤ b.2)

instance : DecidableRel pairLe := fun a b => by
  unfold pairLe; infer_instance

instance : IsTotal (Nat × Nat) pairLe :=
  ⟨fun a b => by unfold pairLe; omega⟩

instance : IsTrans (Nat × Nat) pairLe :=
  ⟨fun a b c => by unfold pairLe; omega⟩

def pySorted (l : List (Nat × Nat)) : List (Nat × Nat) :=
  List.insertionSort pairLe l

/-- discover_servers(): build the inode map from both tables, short
    circuit when it is empty, otherwise scan /proc and return the sorted
    pair list.  The error case is the uncaught StopIteration. -/
def discover_servers (w : World) : Except Unit (List (Nat × Nat)) := do
  let m ← readTables w
  if m.isEmpty then pure []
  else pure (pySorted ((w.procs.map (scanProc m)).flatten))

/-! ## Membership characterizations of discovery -/

/-- Code-level membership: the process entry parses to pid, its command
    line is readable and matches, its fd listing is readable and some fd
    contributes the (truthy) port. -/
def procHit (m : List (Nat × Nat)) (e : ProcEntry) (pid port : Nat) : Bool :=
  (parseDec e.name == some pid) &&
  (match e.cmdline with
   | some toks => cmdMatches toks
   | none => false) &&
  (match e.fds with
   | some fds => fds.any (fun fd => fdPort m fd == some port)
   | none => false)

def memSpec (w : World) (m : List (Nat × Nat)) (pid port : Nat) : Bool :=
  w.procs.any (fun e => procHit m e pid port)

/-- Port contributed by one fd entry according to the claim's words: the
    inode map simply maps the socket's inode to the port, with no
    truthiness restriction on the port value. -/
def fdPortClaim (m : List (Nat × Nat)) (fd : FdEntry) : Option Nat :=
  match fd.target with
  | none => none
  | some t =>
    match sockInode t with
    | none => none
    | some i => List.lookup i m

/-- Claim-level membership (the claim as written: the table maps the
    held socket inode to the port, nothing said about the port value). -/
def procHitClaim (m : List (Nat × Nat)) (e : ProcEntry) (pid port : Nat) : Bool :=
  (parseDec e.name == some pid) &&
  (match e.cmdline with
   | some toks => cmdMatches toks
   | none => false) &&
  (match e.fds with
   | some fds => fds.any (fun fd => fdPortClaim m fd == some port)
   | none => false)

def memClaim (w : World) (m : List (Nat × Nat)) (pid port : Nat) : Bool :=
  w.procs.any (fun e => procHitClaim m e pid port)

/-! ## Lifecycle Controller

server_stop, server_status and the parent side of server_start call
discover_servers() and then act on its result; the models below take the
discovery result (and, for the polling loops, a time-indexed oracle for
the later discovery calls and liveness checks) as explicit inputs, which
is how the claims themselves quantify.  The forked child (session setup,
stream redirection, bind, serve loop) is outside the modelled parent-side
control flow.
-/

def SIGTERM : Nat := 15
def SIGKILL : Nat := 9

/-- servers = [s for s in servers if s[1] == args.port], applied only when
    a port was given. -/
def filterPort (pf : Option Nat) (servers : List (Nat × Nat)) : List (Nat × Nat) :=
  match pf with
  | none => servers
  | some p => servers.filter (fun s => s.2 == p)

/-- grouped.setdefault(spid, []).append(port): association list in key
    insertion order, ports in arrival order. -/
def insertGrouped : List (Nat × List Nat) → Nat → Nat → List (Nat × List Nat)
  | [], pid, port => [(pid, [port])]
  | (p, ps) :: rest, pid, port =>
    if p = pid then (p, ps ++ [port]) :: rest
    else (p, ps) :: insertGrouped rest pid port

def groupByPid (servers : List (Nat × Nat)) : List (Nat × List Nat) :=
  servers.foldl (fun g s => insertGrouped g s.1 s.2) []

/-- sorted() on the port list of one group, for the report lines. -/
def insertNat (x : Nat) : List Nat → List Nat
  | [] => [x]
  | y :: ys => if x ≤ y then x :: y :: ys else y :: insertNat x ys

def pySortNat (l : List Nat) : List Nat := l.foldr insertNat []

inductive StopReport where
  | noServer
  | noneOnPort
  | ambiguous (listing : List (Nat × List Nat))
  | stopped
deriving DecidableEq, Repr

/-- Observable outcome of one server_stop invocation: every os.kill call
    in order as (pid, signal) with signal 0 for the liveness probes, the
    final report, and the invocation's exit status (server_stop contains
    no sys.exit call, so every path returns normally and the process
    exits 0). -/
structure StopResult where
  killCalls : List (Nat × Nat)
  report : StopReport
  exitCode : Nat
deriving DecidableEq, Repr

/-- for _ in range(fuel): os.kill(pid, 0); break on OSError; the liveness
    of the target at the t-th check is alive t.  Returns the probe calls
    made and whether the loop broke early (process observed gone). -/
def pollLoop (pid : Nat) (alive : Nat → Bool) : Nat → Nat → List (Nat × Nat) × Bool
  | _, 0 => ([], false)
  | t, fuel + 1 =>
    if alive t then
      let r := pollLoop pid alive (t + 1) fuel
      ((pid, 0) :: r.1, r.2)
    else ([(pid, 0)], true)

/-- The single-pid path of server_stop: SIGTERM (a ProcessLookupError is
    swallowed, so the call is recorded regardless), the 30-iteration
    disappearance poll, and on exhaustion one more liveness check deciding
    the SIGKILL escalation; the report is stopped on every path. -/
def stopSingle (pid : Nat) (alive : Nat → Bool) : StopResult :=
  let term := [(pid, SIGTERM)]
  let poll := pollLoop pid alive 0 30
  if poll.2 then
    ⟨term ++ poll.1, .stopped, 0⟩
  else
    if alive 30 then
      ⟨term ++ poll.1 ++ [(pid, 0), (pid, SIGKILL)], .stopped, 0⟩
    else
      ⟨term ++ poll.1 ++ [(pid, 0)], .stopped, 0⟩

/-- server_stop(args) given the discovery result, the optional port
    filter, and the liveness oracle for the target pid. -/
def server_stop (servers : List (Nat × Nat)) (pf : Option Nat)
    (alive : Nat → Bool) : StopResult :=
  if servers.isEmpty then ⟨[], .noServer, 0⟩
  else
    let servers2 := filterPort pf servers
    if servers2.isEmpty then ⟨[], .noneOnPort, 0⟩
    else
      let grouped := groupByPid servers2
      if 1 < grouped.length then
        ⟨[], .ambiguous (grouped.map (fun g => (g.1, pySortNat g.2))), 0⟩
      else
        match grouped with
        | [] => ⟨[], .noServer, 0⟩  -- unreachable: grouped is nonempty when servers2 is
        | (pid, _) :: _ => stopSingle pid alive

inductive StatusReport where
  | notRunning
  | notOnPort
  | ambiguous (listing : List (Nat × List Nat))
  | running (pid : Nat) (ports : List Nat)
deriving DecidableEq, Repr

/-- server_status(args) up to its report of process state; the subsequent
    single-port HTTP health fetch reads nothing the grouping logic
    depends on.  The ambiguity branch additionally requires that no port
    filter was given; otherwise the first group is reported as running. -/
def server_status (servers : List (Nat × Nat)) (pf : Option Nat) : StatusReport :=
  if servers.isEmpty then .notRunning
  else
    let servers2 := filterPort pf servers
    if servers2.isEmpty then .notOnPort
    else
      let grouped := groupByPid servers2
      if 1 < grouped.length ∧ pf = none then
        .ambiguous (grouped.map (fun g => (g.1, pySortNat g.2)))
      else
        match grouped with
        | [] => .notRunning  -- unreachable: grouped is nonempty when servers2 is
        | (pid, pl) :: _ => .running pid (pySortNat pl)

/-! ## server_start (parent side) -/

structure StartArgs where
  port : Option Nat
  bind : String

/-- Environment of one server_start invocation: the filesystem facts the
    migration and directory check read, the discovery result at the
    already-running check, the probe outcome, the discovery oracle for
    the post-fork confirmation poll, and the forked child's pid. -/
structure StartEnv where
  newLogExists : Bool
  oldLogExists : Bool
  oldEqNew : Bool
  migrateFails : Bool
  serveDirOk : Bool
  discovered : List (Nat × Nat)
  probeAnswers : Bool
  discoverAt : Nat → List (Nat × Nat)
  childPid : Nat

inductive StartReport where
  | dirNotFound
  | alreadyRunning (pid : Nat) (port : Nat)
  | inUse (port : Nat) (bind : String)
  | startedConfirmed (pid : Nat)
  | startedNotConfirmed (childPid : Nat)
deriving DecidableEq, Repr

/-- Observable outcome of the parent side of server_start: whether the
    legacy log was moved, whether the pre-flight probe connection was
    attempted, whether fork happened, how many discovery calls the
    confirmation poll made, the report, and sys.exit status (none when
    the function returns normally, in which case the process exits 0). -/
structure StartResult where
  migrated : Bool
  probed : Bool
  forked : Bool
  pollCalls : Nat
  report : StartReport
  exitCode : Option Nat
deriving DecidableEq, Repr

/-- Exit status of the whole invocation: the sys.exit argument, or 0 on
    normal return from the subcommand handler. -/
def invocationExit (r : StartResult) : Nat := r.exitCode.getD 0

/-- The parent's post-fork confirmation poll: up to fuel discovery calls,
    stopping at the first whose result lists the requested port.  Returns
    (number of discovery calls made, pid of the first match if any). -/
def confirmPoll (discoverAt : Nat → List (Nat × Nat)) (port : Nat) :
    Nat → Nat → Nat × Option Nat
  | _, 0 => (0, none)
  | t, fuel + 1 =>
    match (discoverAt t).filter (fun s => s.2 == port) with
    | m :: _ => (1, some m.1)
    | [] =>
      let r := confirmPoll discoverAt port (t + 1) fuel
      (r.1 + 1, r.2)

/-- server_start(args), parent side.  args.port is normalized to the
    default before anything else, so the already-running filter always
    compares against a concrete port.  The legacy log migration runs
    before the serve-directory check.  The in-use branch returns (no
    sys.exit); only the missing-directory branch exits 1. -/
def server_start (env : StartEnv) (args : StartArgs) : StartResult :=
  let port := args.port.getD DEFAULT_PORT
  let migrated :=
    !env.newLogExists && env.oldLogExists && !env.oldEqNew && !env.migrateFails
  if !env.serveDirOk then
    ⟨migrated, false, false, 0, .dirNotFound, some 1⟩
  else
    match env.discovered.filter (fun s => s.2 == port) with
    | e :: _ => ⟨migrated, false, false, 0, .alreadyRunning e.1 port, none⟩
    | [] =>
      if env.probeAnswers then
        ⟨migrated, true, false, 0, .inUse port args.bind, none⟩
      else
        let poll := confirmPoll env.discoverAt port 0 30
        match poll.2 with
        | some spid => ⟨migrated, true, true, poll.1, .startedConfirmed spid, none⟩
        | none => ⟨migrated, true, true, poll.1, .startedNotConfirmed env.childPid, none⟩

/-! ## Concrete environments used to evaluate the models -/

/-- No port requested (so the effective port is 8000), the only live
    instance is on port 9000, and the probe finds the port busy. -/
def envA : StartEnv :=
  { newLogExists := true, oldLogExists := false, oldEqNew := false, migrateFails := false,
    serveDirOk := true, discovered := [(7, 9000)], probeAnswers := true,
    discoverAt := fun _ => [], childPid := 99 }

/-- An instance already serves port 8000 while the legacy log migration
    conditions all hold. -/
def envB : StartEnv :=
  { newLogExists := false, oldLogExists := true, oldEqNew := false, migrateFails := false,
    serveDirOk := true, discovered := [(7, 8000)], probeAnswers := false,
    discoverAt := fun _ => [], childPid := 99 }

/-- Nothing running, probe finds the port busy. -/
def envC : StartEnv :=
  { newLogExists := true, oldLogExists := false, oldEqNew := false, migrateFails := false,
    serveDirOk := true, discovered := [], probeAnswers := true,
    discoverAt := fun _ => [], childPid := 99 }

/-- Serve directory missing while the legacy log migration conditions all
    hold. -/
def envD : StartEnv :=
  { newLogExists := false, oldLogExists := true, oldEqNew := false, migrateFails := false,
    serveDirOk := false, discovered := [], probeAnswers := false,
    discoverAt := fun _ => [], childPid := 99 }

/-- Nothing running, probe quiet, and the confirmation poll never sees
    the requested port. -/
def envE : StartEnv :=
  { newLogExists := true, oldLogExists := false, oldEqNew := false, migrateFails := false,
    serveDirOk := true, discovered := [], probeAnswers := false,
    discoverAt := fun _ => [], childPid := 99 }

/-- A realistic kernel state: one listening socket on port 8000 (hex 1F40)
    with inode 111, held twice by the managed process 42. -/
def wA : World :=
  { tcp := some
      [["sl", "local", "rem", "st", "tx", "rx", "tr", "uid", "to", "inode"],
       ["0:", "00000000:1F40", "00000000:0000", "0A", "0", "0", "0", "0", "0", "111"]]
    tcp6 := none
    procs := [{ name := "42",
                cmdline := some ["python3", "http_server.py", "start"],
                fds := some [{ target := some "socket:[111]" },
                             { target := some "socket:[111]" }] }] }

/-- A kernel state whose single listening row carries local port 0 (hex
    0000) under inode 111, held by the managed process 5. -/
def wZ : World :=
  { tcp := some
      [["hdr"],
       ["0:", "00000000:0000", "00000000:0000", "0A", "0", "0", "0", "0", "0", "111"]]
    tcp6 := none
    procs := [{ name := "5",
                cmdline := some ["http_server.py"],
                fds := some [{ target := some "socket:[111]" }] }] }

/-! ## Lemmas about the lifecycle models -/

theorem filterPort_nil (pf : Option Nat) : filterPort pf [] = [] := by
  cases pf <;> rfl

theorem insertGrouped_ne_nil (g : List (Nat × List Nat)) (pid port : Nat) :
    insertGrouped g pid port ≠ [] := by
  cases g with
  | nil => simp [insertGrouped]
  | cons x t =>
    simp only [insertGrouped]
    split <;> simp

theorem foldl_insert_ne_nil (l : List (Nat × Nat)) :
    ∀ acc : List (Nat × List Nat), acc ≠ [] →
      l.foldl (fun g s => insertGrouped g s.1 s.2) acc ≠ [] := by
  induction l with
  | nil => intro acc h; simpa using h
  | cons x xs ih => intro acc _; exact ih _ (insertGrouped_ne_nil _ _ _)

theorem groupByPid_cons_ne_nil (x : Nat × Nat) (xs : List (Nat × Nat)) :
    groupByPid (x :: xs) ≠ [] :=
  foldl_insert_ne_nil xs _ (insertGrouped_ne_nil _ _ _)

theorem ne_nil_of_groupByPid {l : List (Nat × Nat)} (h : groupByPid l ≠ []) :
    l ≠ [] := by
  intro he; subst he; exact h rfl

theorem groupByPid_ne_nil {l : List (Nat × Nat)} (h : l ≠ []) :
    groupByPid l ≠ [] := by
  cases l with
  | nil => exact absurd rfl h
  | cons x xs => exact groupByPid_cons_ne_nil x xs

/-- When the grouping of the filtered discovery result is a single group,
    server_stop takes the single-pid path. -/
theorem server_stop_single {servers : List (Nat × Nat)} {pf : Option Nat}
    {pid : Nat} {ports : List Nat} (alive : Nat → Bool)
    (h : groupByPid (filterPort pf servers) = [(pid, ports)]) :
    server_stop servers pf alive = stopSingle pid alive := by
  have hs2 : filterPort pf servers ≠ [] := by
    intro he
    rw [he] at h
    simp [groupByPid] at h
  have hs : servers ≠ [] := by
    intro he; subst he
    exact hs2 (filterPort_nil pf)
  have h1 : servers.isEmpty = false := by
    simpa using hs
  have h2 : (filterPort pf servers).isEmpty = false := by
    simpa using hs2
  simp [server_stop, h1, h2, h]

/-- When the grouping has at least two groups, server_stop refuses. -/
theorem server_stop_ambiguous {servers : List (Nat × Nat)} {pf : Option Nat}
    (alive : Nat → Bool)
    (h : 1 < (groupByPid (filterPort pf servers)).length) :
    server_stop servers pf alive =
      ⟨[], .ambiguous ((groupByPid (filterPort pf servers)).map
        (fun g => (g.1, pySortNat g.2))), 0⟩ := by
  have hs2 : filterPort pf servers ≠ [] := by
    intro he
    rw [he] at h
    simp [groupByPid] at h
  have hs : servers ≠ [] := by
    intro he; subst he
    exact hs2 (filterPort_nil pf)
  have h1 : servers.isEmpty = false := by simpa using hs
  have h2 : (filterPort pf servers).isEmpty = false := by simpa using hs2
  simp [server_stop, h1, h2, h]

theorem pollLoop_mem (pid : Nat) (alive : Nat → Bool) :
    ∀ (fuel t : Nat), ∀ c ∈ (pollLoop pid alive t fuel).1, c = (pid, 0) := by
  intro fuel
  induction fuel with
  | zero => intro t c hc; simp [pollLoop] at hc
  | succ n ih =>
    intro t c hc
    simp only [pollLoop] at hc
    by_cases h : alive t = true
    · rw [if_pos h] at hc
      rcases List.mem_cons.mp hc with h1 | h1
      · exact h1
      · exact ih (t + 1) c h1
    · rw [if_neg h] at hc
      simpa using hc

theorem pollLoop_len (pid : Nat) (alive : Nat → Bool) :
    ∀ (fuel t : Nat), ((pollLoop pid alive t fuel).1).length ≤ fuel := by
  intro fuel
  induction fuel with
  | zero => intro t; simp [pollLoop]
  | succ n ih =>
    intro t
    simp only [pollLoop]
    by_cases h : alive t = true
    · rw [if_pos h]
      simpa using ih (t + 1)
    · rw [if_neg h]
      simp

theorem pollLoop_snd (pid : Nat) (alive : Nat → Bool) :
    ∀ (fuel t : Nat),
      (pollLoop pid alive t fuel).2 = false ↔ ∀ i < fuel, alive (t + i) = true := by
  intro fuel
  induction fuel with
  | zero => intro t; simp [pollLoop]
  | succ n ih =>
    intro t
    simp only [pollLoop]
    by_cases h : alive t = true
    · rw [if_pos h]
      simp only []
      constructor
      · intro hf i hi
        cases i with
        | zero => simpa using h
        | succ j =>
          have := (ih (t + 1)).mp hf j (by omega)
          simpa [Nat.add_comm, Nat.add_assoc, Nat.add_left_comm] using this
      · intro hall
        refine (ih (t + 1)).mpr ?_
        intro j hj
        have := hall (j + 1) (by omega)
        simpa [Nat.add_comm, Nat.add_assoc, Nat.add_left_comm] using this
    · rw [if_neg h]
      constructor
      · intro hf; exact absurd hf (by simp)
      · intro hall
        exact absurd (by simpa using hall 0 (by omega)) h

theorem stopSingle_report (pid : Nat) (alive : Nat → Bool) :
    (stopSingle pid alive).report = .stopped := by
  simp only [stopSingle]
  split
  · rfl
  · split <;> rfl

theorem stopSingle_head (pid : Nat) (alive : Nat → Bool) :
    (stopSingle pid alive).killCalls.head? = some (pid, SIGTERM) := by
  simp only [stopSingle]
  split
  · rfl
  · split <;> rfl

theorem filter_pollLoop_sig (pid : Nat) (alive : Nat → Bool) (fuel t : Nat) :
    ((pollLoop pid alive t fuel).1).filter (fun c => c.2 != 0) = [] := by
  rw [List.filter_eq_nil_iff]
  intro c hc
  rw [pollLoop_mem pid alive fuel t c hc]
  simp

/-- The termination signals sent by the single-pid path: SIGTERM always,
    then SIGKILL exactly when the target was observed alive at all 31
    liveness checks (the 30 poll iterations and the post-bound check). -/
theorem stopSingle_kills (pid : Nat) (alive : Nat → Bool) :
    (stopSingle pid alive).killCalls.filter (fun c => c.2 != 0) =
      (pid, SIGTERM) ::
        (if (List.range 31).all alive then [(pid, SIGKILL)] else []) := by
  have hall : (List.range 31).all alive = true ↔ ∀ i < 31, alive i = true := by
    simp [List.all_eq_true, List.mem_range]
  have hsnd := pollLoop_snd pid alive 30 0
  simp only [Nat.zero_add] at hsnd
  simp only [stopSingle]
  by_cases hp : (pollLoop pid alive 0 30).2 = true
  · rw [if_pos hp]
    have hnot : ¬ (List.range 31).all alive = true := by
      rw [hall]
      intro hallv
      have : (pollLoop pid alive 0 30).2 = false :=
        hsnd.mpr (fun i hi => hallv i (by omega))
      rw [this] at hp; exact absurd hp (by simp)
    rw [if_neg hnot]
    simp [List.filter_append, filter_pollLoop_sig, SIGTERM]
  · have hp' : (pollLoop pid alive 0 30).2 = false := by
      cases h : (pollLoop pid alive 0 30).2
      · rfl
      · exact absurd h hp
    rw [if_neg hp]
    have h30 := hsnd.mp hp'
    by_cases ha : alive 30 = true
    · rw [if_pos ha]
      have hyes : (List.range 31).all alive = true := by
        rw [hall]
        intro i hi
        by_cases hi30 : i < 30
        · exact h30 i hi30
        · have : i = 30 := by omega
          rw [this]; exact ha
      rw [if_pos hyes]
      simp [List.filter_append, filter_pollLoop_sig, SIGTERM, SIGKILL]
    · rw [if_neg ha]
      have hno : ¬ (List.range 31).all alive = true := by
        rw [hall]
        intro hallv
        exact ha (hallv 30 (by omega))
      rw [if_neg hno]
      simp [List.filter_append, filter_pollLoop_sig, SIGTERM]

/-- At most 31 liveness probes are issued by the single-pid path. -/
theorem stopSingle_probes_le (pid : Nat) (alive : Nat → Bool) :
    (((stopSingle pid alive).killCalls).filter (fun c => c.2 == 0)).length ≤ 31 := by
  have hlen := pollLoop_len pid alive 30 0
  have hfl : (((pollLoop pid alive 0 30).1).filter (fun c => c.2 == 0)).length ≤ 30 :=
    le_trans (List.length_filter_le _ _) hlen
  simp only [stopSingle]
  split
  · simp only [StopResult.killCalls, List.filter_append, List.length_append]
    simp [SIGTERM]
    omega
  · split
    · simp only [StopResult.killCalls, List.filter_append, List.length_append]
      simp [SIGTERM, SIGKILL]
      omega
    · simp only [StopResult.killCalls, List.filter_append, List.length_append]
      simp [SIGTERM]
      omega

theorem server_stop_probes_le (servers : List (Nat × Nat)) (pf : Option Nat)
    (alive : Nat → Bool) :
    (((server_stop servers pf alive).killCalls).filter (fun c => c.2 == 0)).length ≤ 31 := by
  simp only [server_stop]
  split
  · simp
  · split
    · simp
    · split
      · simp
      · split
        · simp
        · exact stopSingle_probes_le _ alive

theorem confirmPoll_calls_le (d : Nat → List (Nat × Nat)) (port : Nat) :
    ∀ (fuel t : Nat), (confirmPoll d port t fuel).1 ≤ fuel := by
  intro fuel
  induction fuel with
  | zero => intro t; simp [confirmPoll]
  | succ n ih =>
    intro t
    simp only [confirmPoll]
    split
    · simp
    · simpa using ih (t + 1)

theorem confirmPoll_none (d : Nat → List (Nat × Nat)) (port : Nat)
    (h : ∀ t, ∀ s ∈ d t, s.2 ≠ port) :
    ∀ (fuel t : Nat), (confirmPoll d port t fuel).2 = none := by
  intro fuel
  induction fuel with
  | zero => intro t; simp [confirmPoll]
  | succ n ih =>
    intro t
    have hf : (d t).filter (fun s => s.2 == port) = [] := by
      rw [List.filter_eq_nil_iff]
      intro s hs
      simpa using h t s hs
    simp only [confirmPoll, hf]
    simpa using ih (t + 1)

theorem server_start_polls_le (env : StartEnv) (args : StartArgs) :
    (server_start env args).pollCalls ≤ 30 := by
  simp only [server_start]
  split
  · simp
  · split
    · simp
    · split
      · simp
      · split <;>
          simpa using confirmPoll_calls_le env.discoverAt (args.port.getD DEFAULT_PORT) 30 0

theorem stopSingle_exit (pid : Nat) (alive : Nat → Bool) :
    (stopSingle pid alive).exitCode = 0 := by
  simp only [stopSingle]
  split
  · rfl
  · split <;> rfl

theorem server_status_ambiguous {servers : List (Nat × Nat)} {pf : Option Nat}
    (h : 1 < (groupByPid (filterPort pf servers)).length) (hpf : pf = none) :
    server_status servers pf =
      .ambiguous ((groupByPid (filterPort pf servers)).map
        (fun g => (g.1, pySortNat g.2))) := by
  subst hpf
  have hs2 : filterPort none servers ≠ [] := by
    intro he
    rw [he] at h
    simp [groupByPid] at h
  have hs : servers ≠ [] := by
    intro he; subst he
    exact hs2 (filterPort_nil none)
  have h1 : servers.isEmpty = false := by simpa using hs
  simp [server_status, h1, hs2, h]

theorem server_status_first {servers : List (Nat × Nat)} {pf : Option Nat}
    {pid : Nat} {pl : List Nat} {rest : List (Nat × List Nat)}
    (h : groupByPid (filterPort pf servers) = (pid, pl) :: rest)
    (hc : ¬(1 < (groupByPid (filterPort pf servers)).length ∧ pf = none)) :
    server_status servers pf = .running pid (pySortNat pl) := by
  have hs2 : filterPort pf servers ≠ [] := by
    intro he
    rw [he] at h
    simp [groupByPid] at h
  have hs : servers ≠ [] := by
    intro he; subst he
    exact hs2 (filterPort_nil pf)
  have h1 : servers.isEmpty = false := by simpa using hs
  have h2 : (filterPort pf servers).isEmpty = false := by simpa using hs2
  simp only [server_status, h1, h2, Bool.false_eq_true, if_false]
  rw [if_neg hc, h]

/-! ## Claim theorems -/

/-- C3: whenever the discovery result (after the optional port filter)
    groups into two or more distinct pids, server_stop makes no os.kill
    call at all, returns normally (invocation exit 0), and reports the
    ambiguity listing every pid with its sorted ports. -/
theorem stop_ambiguous_refuses (servers : List (Nat × Nat)) (pf : Option Nat)
    (alive : Nat → Bool)
    (h : 1 < (groupByPid (filterPort pf servers)).length) :
    (server_stop servers pf alive).killCalls = [] ∧
    (server_stop servers pf alive).exitCode = 0 ∧
    (server_stop servers pf alive).report =
      .ambiguous ((groupByPid (filterPort pf servers)).map
        (fun g => (g.1, pySortNat g.2))) := by
  rw [server_stop_ambiguous alive h]
  exact ⟨rfl, rfl, rfl⟩

theorem stop_ambiguous_refuses_witness :
    (server_stop [(1, 80), (2, 81)] none (fun _ => true)).killCalls = [] ∧
    (server_stop [(1, 80), (2, 81)] none (fun _ => true)).exitCode = 0 ∧
    (server_stop [(1, 80), (2, 81)] none (fun _ => true)).report =
      .ambiguous [(1, [80]), (2, [81])] := by
  have h := stop_ambiguous_refuses [(1, 80), (2, 81)] none (fun _ => true) (by decide)
  exact ⟨h.1, h.2.1, by rw [h.2.2]; rfl⟩

/-- C4: with exactly one matched pid, server_stop sends SIGTERM first,
    polls at most 30 times, sends SIGKILL exactly when the process was
    still alive at every check including the post-bound one, and reports
    stopped on both paths. -/
theorem stop_single_escalation (servers : List (Nat × Nat)) (pf : Option Nat)
    (alive : Nat → Bool) (pid : Nat) (ports : List Nat)
    (h : groupByPid (filterPort pf servers) = [(pid, ports)]) :
    (server_stop servers pf alive).report = .stopped ∧
    (server_stop servers pf alive).killCalls.head? = some (pid, SIGTERM) ∧
    (server_stop servers pf alive).killCalls.filter (fun c => c.2 != 0) =
      (pid, SIGTERM) ::
        (if (List.range 31).all alive then [(pid, SIGKILL)] else []) := by
  rw [server_stop_single alive h]
  exact ⟨stopSingle_report pid alive, stopSingle_head pid alive, stopSingle_kills pid alive⟩

theorem stop_single_escalation_witness :
    (server_stop [(3, 8000)] none (fun _ => true)).report = .stopped ∧
    (server_stop [(3, 8000)] none (fun _ => true)).killCalls.filter (fun c => c.2 != 0)
      = [(3, SIGTERM), (3, SIGKILL)] ∧
    (server_stop [(4, 8000)] (some 8000) (fun _ => false)).killCalls.filter
        (fun c => c.2 != 0) = [(4, SIGTERM)] := by
  have h1 := stop_single_escalation [(3, 8000)] none (fun _ => true) 3 [8000] (by decide)
  have h2 := stop_single_escalation [(4, 8000)] (some 8000) (fun _ => false) 4 [8000] (by decide)
  refine ⟨h1.1, ?_, ?_⟩
  · rw [h1.2.2]; rfl
  · rw [h2.2.2]; rfl

/-- C10: with a single matched pid the stop path is total in the liveness
    oracle: whatever liveness pattern the races produce (each kill or
    check simply observing the process alive or gone), the function
    returns normally and the final report is stopped. -/
theorem stop_never_raises (servers : List (Nat × Nat)) (pf : Option Nat)
    (alive : Nat → Bool) (pid : Nat) (ports : List Nat)
    (h : groupByPid (filterPort pf servers) = [(pid, ports)]) :
    (server_stop servers pf alive).report = .stopped ∧
    (server_stop servers pf alive).exitCode = 0 := by
  rw [server_stop_single alive h]
  exact ⟨stopSingle_report pid alive, stopSingle_exit pid alive⟩

theorem stop_never_raises_witness :
    (server_stop [(6, 8080)] none (fun t => t < 5)).report = .stopped ∧
    (server_stop [(6, 8080)] none (fun t => t < 5)).exitCode = 0 :=
  stop_never_raises [(6, 8080)] none (fun t => t < 5) 6 [8080] (by decide)

/-- C9: the post-start confirmation poll makes at most 30 discovery
    calls, the post-stop disappearance poll makes at most 31 liveness
    probes, and when the confirmation poll never sees the requested port
    the report is the degraded startedNotConfirmed. -/
theorem polls_bounded (env : StartEnv) (args : StartArgs)
    (servers : List (Nat × Nat)) (pf : Option Nat) (alive : Nat → Bool) :
    (server_start env args).pollCalls ≤ 30 ∧
    (((server_stop servers pf alive).killCalls).filter
      (fun c => c.2 == 0)).length ≤ 31 ∧
    (env.serveDirOk = true →
      (∀ s ∈ env.discovered, s.2 ≠ args.port.getD DEFAULT_PORT) →
      env.probeAnswers = false →
      (∀ t, ∀ s ∈ env.discoverAt t, s.2 ≠ args.port.getD DEFAULT_PORT) →
      (server_start env args).report = .startedNotConfirmed env.childPid) := by
  refine ⟨server_start_polls_le env args, server_stop_probes_le servers pf alive, ?_⟩
  intro hdir hdisc hprobe hat
  have hfilter : env.discovered.filter (fun s => s.2 == args.port.getD DEFAULT_PORT) = [] := by
    rw [List.filter_eq_nil_iff]
    intro s hs
    simpa using hdisc s hs
  have hnone := confirmPoll_none env.discoverAt (args.port.getD DEFAULT_PORT) hat 30 0
  simp [server_start, hdir, hfilter, hprobe, hnone]

theorem polls_bounded_witness :
    (server_start envE ⟨some 8000, "x"⟩).pollCalls ≤ 30 ∧
    (((server_stop [(3, 80)] none (fun _ => true)).killCalls).filter
      (fun c => c.2 == 0)).length ≤ 31 ∧
    (server_start envE ⟨some 8000, "x"⟩).report = .startedNotConfirmed 99 := by
  have h := polls_bounded envE ⟨some 8000, "x"⟩ [(3, 80)] none (fun _ => true)
  refine ⟨h.1, h.2.1, ?_⟩
  have h3 := h.2.2 rfl (by simp [envE]) rfl (by simp [envE])
  simpa [envE] using h3

/-- C5 as amended: when discovery reports an instance on the effective
    port (the requested one, defaulting to 8000 when the request gives
    none), start reports already running and returns without the probe,
    without forking and without exiting; the legacy log migration runs
    before this check, so the migrated flag keeps its usual value. -/
theorem start_already_running (env : StartEnv) (args : StartArgs)
    (hdir : env.serveDirOk = true)
    (hex : ∃ s ∈ env.discovered, s.2 = args.port.getD DEFAULT_PORT) :
    ∃ pid, server_start env args =
      { migrated := !env.newLogExists && env.oldLogExists &&
          !env.oldEqNew && !env.migrateFails,
        probed := false, forked := false, pollCalls := 0,
        report := .alreadyRunning pid (args.port.getD DEFAULT_PORT),
        exitCode := none } := by
  cases hf : env.discovered.filter (fun s => s.2 == args.port.getD DEFAULT_PORT) with
  | nil =>
    exfalso
    obtain ⟨s, hs, hp⟩ := hex
    rw [List.filter_eq_nil_iff] at hf
    exact hf s hs (by simpa using hp)
  | cons e rest =>
    refine ⟨e.1, ?_⟩
    simp [server_start, hdir, hf]

theorem start_already_running_witness :
    ∃ pid, server_start envB ⟨some 8000, "b"⟩ =
      { migrated := true, probed := false, forked := false, pollCalls := 0,
        report := .alreadyRunning pid 8000, exitCode := none } := by
  have h := start_already_running envB ⟨some 8000, "b"⟩ rfl
    ⟨(7, 8000), by simp [envB], rfl⟩
  simpa [envB] using h

/-- C5 counterexample: with no requested port the code filters discovery
    by the default 8000, so an instance on 9000 alone does not trigger
    the already-running return (the probe runs and reports in-use
    instead); and on the already-running path the legacy log migration
    has already happened, a side effect. -/
theorem start_default_port_cex :
    (server_start envA ⟨none, "0.0.0.0"⟩).report = .inUse 8000 "0.0.0.0" ∧
    (server_start envA ⟨none, "0.0.0.0"⟩).probed = true ∧
    (server_start envB ⟨some 8000, "b"⟩).report = .alreadyRunning 7 8000 ∧
    (server_start envB ⟨some 8000, "b"⟩).migrated = true := by
  refine ⟨?_, ?_, ?_, ?_⟩ <;> decide

/-- C6 as amended: when nothing matches the effective port in discovery
    and the pre-flight probe finds (bind, port) answering, start reports
    in-use and returns normally without forking, and the invocation exits
    with code 0 (the branch has no sys.exit call). -/
theorem start_in_use (env : StartEnv) (args : StartArgs)
    (hdir : env.serveDirOk = true)
    (hnone : ∀ s ∈ env.discovered, s.2 ≠ args.port.getD DEFAULT_PORT)
    (hprobe : env.probeAnswers = true) :
    server_start env args =
      { migrated := !env.newLogExists && env.oldLogExists &&
          !env.oldEqNew && !env.migrateFails,
        probed := true, forked := false, pollCalls := 0,
        report := .inUse (args.port.getD DEFAULT_PORT) args.bind,
        exitCode := none } ∧
    invocationExit (server_start env args) = 0 := by
  have hf : env.discovered.filter (fun s => s.2 == args.port.getD DEFAULT_PORT) = [] := by
    rw [List.filter_eq_nil_iff]
    intro s hs
    simpa using hnone s hs
  have h1 : server_start env args =
      { migrated := !env.newLogExists && env.oldLogExists &&
          !env.oldEqNew && !env.migrateFails,
        probed := true, forked := false, pollCalls := 0,
        report := .inUse (args.port.getD DEFAULT_PORT) args.bind,
        exitCode := none } := by
    simp [server_start, hdir, hf, hprobe]
  exact ⟨h1, by rw [invocationExit, h1]; rfl⟩

theorem start_in_use_witness :
    server_start envC ⟨some 8000, "127.0.0.1"⟩ =
      { migrated := false, probed := true, forked := false, pollCalls := 0,
        report := .inUse 8000 "127.0.0.1", exitCode := none } ∧
    invocationExit (server_start envC ⟨some 8000, "127.0.0.1"⟩) = 0 := by
  have h := start_in_use envC ⟨some 8000, "127.0.0.1"⟩ rfl (by simp [envC]) rfl
  exact ⟨by rw [h.1]; rfl, h.2⟩

/-- C6 counterexample: the in-use branch returns instead of calling
    sys.exit(1), so the invocation exits 0, not 1. -/
theorem start_in_use_exit_cex :
    (server_start envC ⟨some 8000, "127.0.0.1"⟩).report = .inUse 8000 "127.0.0.1" ∧
    (server_start envC ⟨some 8000, "127.0.0.1"⟩).forked = false ∧
    (server_start envC ⟨some 8000, "127.0.0.1"⟩).exitCode = none ∧
    invocationExit (server_start envC ⟨some 8000, "127.0.0.1"⟩) = 0 := by
  refine ⟨?_, ?_, ?_, ?_⟩ <;> decide

/-- C8 as amended: when the serve directory does not exist, start reports
    directory-not-found and exits 1 without probing or forking, but the
    legacy log migration has already run (it precedes the check), so the
    old log is moved whenever the migration conditions hold. -/
theorem start_dir_missing (env : StartEnv) (args : StartArgs)
    (h : env.serveDirOk = false) :
    server_start env args =
      { migrated := !env.newLogExists && env.oldLogExists &&
          !env.oldEqNew && !env.migrateFails,
        probed := false, forked := false, pollCalls := 0,
        report := .dirNotFound, exitCode := some 1 } := by
  simp [server_start, h]

theorem start_dir_missing_witness :
    server_start envD ⟨some 9000, "b"⟩ =
      { migrated := true, probed := false, forked := false, pollCalls := 0,
        report := .dirNotFound, exitCode := some 1 } := by
  have h := start_dir_missing envD ⟨some 9000, "b"⟩ rfl
  simpa [envD] using h

/-- C8 counterexample: serve directory missing while the migration
    conditions hold - the old log is moved and only then does start exit
    with code 1. -/
theorem start_migration_order_cex :
    (server_start envD ⟨some 8000, "0.0.0.0"⟩).migrated = true ∧
    (server_start envD ⟨some 8000, "0.0.0.0"⟩).report = .dirNotFound ∧
    (server_start envD ⟨some 8000, "0.0.0.0"⟩).exitCode = some 1 := by
  refine ⟨?_, ?_, ?_⟩ <;> decide

/-- C7 as amended: status applies the same grouping as stop; with no port
    filter the two report ambiguity in exactly the same situations; with a
    port filter present and more than one matched pid, stop refuses with
    the full listing while status reports the first matched pid. -/
theorem status_stop_agree (servers : List (Nat × Nat)) (pf : Option Nat)
    (alive : Nat → Bool) :
    (pf = none →
      ((∃ g, server_status servers pf = .ambiguous g) ↔
        (∃ g, (server_stop servers pf alive).report = .ambiguous g))) ∧
    (∀ p pid pl rest, pf = some p →
      groupByPid (filterPort pf servers) = (pid, pl) :: rest → rest ≠ [] →
      (server_stop servers pf alive).report =
        .ambiguous ((groupByPid (filterPort pf servers)).map
          (fun g => (g.1, pySortNat g.2))) ∧
      server_status servers pf = .running pid (pySortNat pl)) := by
  constructor
  · intro hpf
    subst hpf
    rcases hsrv : servers with _ | ⟨x, xs⟩
    · simp [server_status, server_stop]
    · have hne : groupByPid (filterPort none (x :: xs)) ≠ [] :=
        groupByPid_ne_nil (by simp [filterPort])
      by_cases hlen : 1 < (groupByPid (filterPort none (x :: xs))).length
      · rw [server_status_ambiguous hlen rfl, server_stop_ambiguous alive hlen]
        simp
      · obtain ⟨pid, pl, rest, hg⟩ :
            ∃ pid pl rest, groupByPid (filterPort none (x :: xs)) = (pid, pl) :: rest := by
          rcases hg : groupByPid (filterPort none (x :: xs)) with _ | ⟨⟨a, b⟩, r⟩
          · exact absurd hg hne
          · exact ⟨a, b, r, rfl⟩
        have hrest : rest = [] := by
          rcases rest with _ | ⟨y, ys⟩
          · rfl
          · exfalso
            apply hlen
            rw [hg]
            simp
        subst hrest
        rw [server_status_first hg (by tauto), server_stop_single alive hg]
        simp [stopSingle_report]
  · intro p pid pl rest hpf hg hrest
    have hlen : 1 < (groupByPid (filterPort pf servers)).length := by
      rw [hg]
      rcases rest with _ | ⟨y, ys⟩
      · exact absurd rfl hrest
      · simp
    constructor
    · rw [server_stop_ambiguous alive hlen]
    · exact server_status_first hg (by simp [hpf])

theorem status_stop_agree_witness :
    ((∃ g, server_status [(1, 80), (2, 81)] none = .ambiguous g) ↔
      (∃ g, (server_stop [(1, 80), (2, 81)] none (fun _ => true)).report
        = .ambiguous g)) ∧
    (server_stop [(5, 80), (6, 80)] (some 80) (fun _ => true)).report =
      .ambiguous [(5, [80]), (6, [80])] ∧
    server_status [(5, 80), (6, 80)] (some 80) = .running 5 [80] := by
  refine ⟨(status_stop_agree [(1, 80), (2, 81)] none (fun _ => true)).1 rfl, ?_⟩
  have h := (status_stop_agree [(5, 80), (6, 80)] (some 80) (fun _ => true)).2
    80 5 [80] [(6, [80])] rfl (by decide) (by decide)
  exact ⟨by rw [h.1]; rfl, h.2⟩

/-- C7 counterexample: two pids both serving the filtered port - stop
    refuses as ambiguous, but status (whose ambiguity branch additionally
    requires that no port was given) reports the first pid as running. -/
theorem status_port_filter_cex :
    (server_stop [(1, 80), (2, 80)] (some 80) (fun _ => true)).report
      = .ambiguous [(1, [80]), (2, [80])] ∧
    server_status [(1, 80), (2, 80)] (some 80) = .running 1 [80] := by
  constructor <;> decide

/-! ## Lemmas about discovery -/

theorem readTable_ok (m : List (Nat × Nat)) (t : Option (List (List String)))
    (h : t ≠ some []) : ∃ m2, readTable m t = .ok m2 := by
  match t with
  | none => exact ⟨m, rfl⟩
  | some [] => exact absurd rfl h
  | some (hd :: rows) => exact ⟨tableFold m rows, rfl⟩

theorem discover_eq (w : World) {m : List (Nat × Nat)}
    (hm : readTables w = Except.ok m) :
    discover_servers w =
      Except.ok (if m.isEmpty then []
        else pySorted ((w.procs.map (scanProc m)).flatten)) := by
  unfold discover_servers
  rw [hm]
  cases m with
  | nil => rfl
  | cons x xs => rfl

theorem mem_addSeen (seen : List Nat) (p q : Nat) :
    q ∈ addSeen seen p ↔ q ∈ seen ∨ q = p := by
  unfold addSeen
  by_cases h : seen.contains p = true
  · rw [if_pos h]
    have hp : p ∈ seen := List.elem_iff.mp h
    constructor
    · exact Or.inl
    · rintro (hq | rfl)
      · exact hq
      · exact hp
  · rw [if_neg h]
    simp [List.mem_append]

theorem nodup_addSeen (seen : List Nat) (p : Nat) (h : seen.Nodup) :
    (addSeen seen p).Nodup := by
  unfold addSeen
  by_cases hc : seen.contains p = true
  · rwa [if_pos hc]
  · rw [if_neg hc]
    rw [List.nodup_append]
    refine ⟨h, by simp, ?_⟩
    intro a ha hb
    have : a = p := by simpa using hb
    subst this
    exact hc (List.elem_iff.mpr ha)

theorem mem_fdStep (m : List (Nat × Nat)) (seen : List Nat) (fd : FdEntry) (q : Nat) :
    q ∈ fdStep m seen fd ↔ q ∈ seen ∨ fdPort m fd = some q := by
  unfold fdStep
  cases hp : fdPort m fd with
  | none => simp
  | some p =>
    rw [mem_addSeen]
    simp [eq_comm]

theorem nodup_fdStep (m : List (Nat × Nat)) (seen : List Nat) (fd : FdEntry)
    (h : seen.Nodup) : (fdStep m seen fd).Nodup := by
  unfold fdStep
  cases fdPort m fd with
  | none => exact h
  | some p => exact nodup_addSeen seen p h

theorem mem_foldl_fdStep (m : List (Nat × Nat)) (fds : List FdEntry) :
    ∀ (seen : List Nat) (q : Nat),
      q ∈ fds.foldl (fdStep m) seen ↔
        q ∈ seen ∨ ∃ fd ∈ fds, fdPort m fd = some q := by
  induction fds with
  | nil => simp
  | cons fd rest ih =>
    intro seen q
    rw [List.foldl_cons, ih, mem_fdStep]
    simp [List.mem_cons, or_assoc]

theorem mem_seenPorts (m : List (Nat × Nat)) (fds : List FdEntry) (q : Nat) :
    q ∈ seenPorts m fds ↔ ∃ fd ∈ fds, fdPort m fd = some q := by
  unfold seenPorts
  rw [mem_foldl_fdStep]
  simp

theorem nodup_seenPorts (m : List (Nat × Nat)) (fds : List FdEntry) :
    (seenPorts m fds).Nodup := by
  have haux : ∀ (fds : List FdEntry) (seen : List Nat), seen.Nodup →
      (fds.foldl (fdStep m) seen).Nodup := by
    intro fds
    induction fds with
    | nil => intro seen h; simpa using h
    | cons fd rest ih =>
      intro seen h
      exact ih _ (nodup_fdStep m seen fd h)
  exact haux fds [] (by simp)

theorem mem_scanProc (m : List (Nat × Nat)) (e : ProcEntry) (pid port : Nat) :
    (pid, port) ∈ scanProc m e ↔ procHit m e pid port = true := by
  unfold scanProc procHit
  cases hn : parseDec e.name with
  | none => simp
  | some pid2 =>
    cases hc : e.cmdline with
    | none => simp
    | some toks =>
      dsimp only
      by_cases hcm : cmdMatches toks = true
      · rw [if_pos hcm]
        cases hf : e.fds with
        | none => simp
        | some fds =>
          rw [List.mem_map]
          simp only [hcm, Bool.true_and, Bool.and_eq_true, beq_iff_eq,
            Option.some.injEq, List.any_eq_true, mem_seenPorts, Prod.mk.injEq]
          constructor
          · rintro ⟨a, ⟨fd, hfd, hp⟩, h1, h2⟩
            subst h1
            subst h2
            exact ⟨⟨rfl, trivial⟩, fd, hfd, hp⟩
          · rintro ⟨⟨h1, -⟩, fd, hfd, hp⟩
            subst h1
            exact ⟨port, ⟨fd, hfd, hp⟩, rfl, rfl⟩
      · rw [if_neg hcm]
        simp [hcm]

theorem mem_results (w : World) (m : List (Nat × Nat)) (pid port : Nat) :
    (pid, port) ∈ (w.procs.map (scanProc m)).flatten ↔
      memSpec w m pid port = true := by
  rw [List.mem_flatten]
  unfold memSpec
  rw [List.any_eq_true]
  constructor
  · rintro ⟨l, hl, hmem⟩
    rw [List.mem_map] at hl
    obtain ⟨e, he, rfl⟩ := hl
    exact ⟨e, he, (mem_scanProc m e pid port).mp hmem⟩
  · rintro ⟨e, he, hh⟩
    exact ⟨scanProc m e, List.mem_map.mpr ⟨e, he, rfl⟩,
      (mem_scanProc m e pid port).mpr hh⟩

theorem nodup_scanProc (m : List (Nat × Nat)) (e : ProcEntry) :
    (scanProc m e).Nodup := by
  unfold scanProc
  cases parseDec e.name with
  | none => simp
  | some pid =>
    cases e.cmdline with
    | none => simp
    | some toks =>
      dsimp only
      split
      · cases e.fds with
        | none => simp
        | some fds =>
          exact (nodup_seenPorts m fds).map
            (fun a b h => by simpa using h)
      · simp

theorem scanProc_pid {m : List (Nat × Nat)} {e : ProcEntry} {pid port : Nat}
    (h : (pid, port) ∈ scanProc m e) : parseDec e.name = some pid := by
  rw [mem_scanProc] at h
  unfold procHit at h
  simp only [Bool.and_eq_true, beq_iff_eq] at h
  exact h.1.1

theorem pairwise_pids {l : List ProcEntry}
    (h : (l.filterMap (fun e => parseDec e.name)).Nodup) :
    l.Pairwise (fun a b => ∀ x y,
      parseDec a.name = some x → parseDec b.name = some y → x ≠ y) := by
  induction l with
  | nil => simp
  | cons e rest ih =>
    rw [List.filterMap_cons] at h
    cases hn : parseDec e.name with
    | none =>
      rw [hn] at h
      refine List.Pairwise.cons ?_ (ih h)
      intro b hb x y hx
      rw [hn] at hx
      exact absurd hx (by simp)
    | some p =>
      rw [hn] at h
      have h1 : p ∉ rest.filterMap (fun e => parseDec e.name) :=
        (List.nodup_cons.mp h).1
      have h2 := (List.nodup_cons.mp h).2
      refine List.Pairwise.cons ?_ (ih h2)
      intro b hb x y hx hy
      rw [hn] at hx
      injection hx with hx2
      subst hx2
      intro hxy
      subst hxy
      exact h1 (List.mem_filterMap.mpr ⟨b, hb, hy⟩)

theorem nodup_results (w : World) (m : List (Nat × Nat))
    (h : (w.procs.filterMap (fun e => parseDec e.name)).Nodup) :
    ((w.procs.map (scanProc m)).flatten).Nodup := by
  rw [List.nodup_flatten]
  constructor
  · intro l hl
    rw [List.mem_map] at hl
    obtain ⟨e, _, rfl⟩ := hl
    exact nodup_scanProc m e
  · rw [List.pairwise_map]
    refine (pairwise_pids h).imp ?_
    intro a b hab
    intro x hxa hxb
    obtain ⟨pid, port⟩ := x
    exact hab pid pid (scanProc_pid hxa) (scanProc_pid hxb) rfl

theorem sorted_pySorted (l : List (Nat × Nat)) :
    List.Sorted pairLe (pySorted l) :=
  List.sorted_insertionSort pairLe l

theorem mem_pySorted (l : List (Nat × Nat)) (x : Nat × Nat) :
    x ∈ pySorted l ↔ x ∈ l :=
  (List.perm_insertionSort pairLe l).mem_iff

theorem nodup_pySorted {l : List (Nat × Nat)} (h : l.Nodup) :
    (pySorted l).Nodup :=
  ((List.perm_insertionSort pairLe l).nodup_iff).mpr h

theorem fdPort_nil (fd : FdEntry) : fdPort [] fd = none := by
  unfold fdPort
  cases fd.target with
  | none => rfl
  | some t =>
    dsimp only
    cases h : sockInode t with
    | none => rfl
    | some i => rfl

theorem memSpec_nil (w : World) (pid port : Nat) :
    memSpec w [] pid port = false := by
  unfold memSpec
  rw [List.any_eq_false]
  intro e _
  unfold procHit
  cases e.fds with
  | none => simp
  | some fds =>
    have : fds.any (fun fd => fdPort [] fd == some port) = false := by
      rw [List.any_eq_false]
      intro fd _
      rw [fdPort_nil fd]
      simp
    simp [this]

/-- C2 counterexample: a present but zero-line socket table file makes
    next(f) raise StopIteration, which the except clause catching only
    FileNotFoundError and PermissionError does not intercept, so this
    discovery raises instead of returning a list. -/
theorem discover_empty_table_cex :
    discover_servers { tcp := some [], tcp6 := none, procs := [] } =
      Except.error () := by
  rfl

/-- C2 as amended: provided every present socket table file has at least
    its header line, discovery returns a list for every state of the
    tables and of the process table; missing or permission-denied tables
    and all per-process read failures are absorbed by construction. -/
theorem discover_no_raise (w : World)
    (h4 : w.tcp ≠ some []) (h6 : w.tcp6 ≠ some []) :
    ∃ l, discover_servers w = Except.ok l := by
  obtain ⟨m1, hm1⟩ := readTable_ok [] w.tcp h4
  obtain ⟨m, hm⟩ := readTable_ok m1 w.tcp6 h6
  have hts : readTables w = Except.ok m := by
    unfold readTables
    rw [hm1]
    exact hm
  exact ⟨_, discover_eq w hts⟩

theorem discover_no_raise_witness :
    ∃ l, discover_servers { tcp := none, tcp6 := none, procs := [] } =
      Except.ok l :=
  discover_no_raise { tcp := none, tcp6 := none, procs := [] }
    (by simp) (by simp)

/-- C1 as amended: when discovery completes with inode map m, its result
    is sorted by (pid, port), duplicate-free (given that the process
    directory entries parse to pairwise distinct pids, as they do in a
    real process table), and contains exactly the pairs (pid, port) such
    that the process pid has a matching command line and holds an fd to
    a socket whose inode the listening-socket map sends to the nonzero
    port - the nonzero restriction being what the code's truthiness test
    on the looked-up port adds to the claim. -/
theorem discover_characterization (w : World) (m l : List (Nat × Nat))
    (hm : readTables w = Except.ok m)
    (hpids : (w.procs.filterMap (fun e => parseDec e.name)).Nodup)
    (hl : discover_servers w = Except.ok l) :
    List.Sorted pairLe l ∧ l.Nodup ∧
    ∀ pid port, ((pid, port) ∈ l ↔ memSpec w m pid port = true) := by
  have hd := discover_eq w hm
  rw [hl] at hd
  injection hd with hd
  cases m with
  | nil =>
    simp only [List.isEmpty_nil, if_pos] at hd
    subst hd
    refine ⟨by simp, by simp, ?_⟩
    intro pid port
    rw [memSpec_nil]
    simp
  | cons x xs =>
    simp only [List.isEmpty_cons, Bool.false_eq_true, if_false] at hd
    subst hd
    refine ⟨sorted_pySorted _, nodup_pySorted (nodup_results w (x :: xs) hpids), ?_⟩
    intro pid port
    rw [mem_pySorted, mem_results]

theorem discover_characterization_witness :
    List.Sorted pairLe [(42, 8000)] ∧
    ([(42, 8000)] : List (Nat × Nat)).Nodup ∧
    ∀ pid port, ((pid, port) ∈ ([(42, 8000)] : List (Nat × Nat)) ↔
      memSpec wA [(111, 8000)] pid port = true) :=
  discover_characterization wA [(111, 8000)] [(42, 8000)]
    (by rfl) (by decide) (by rfl)

/-- C1 counterexample: a kernel table whose only listening row maps inode
    111 to port 0, held by managed process 5.  The claim as written makes
    discovery include (5, 0) - memClaim holds - but the source tests the
    looked-up port for truthiness (if port:), so port 0 is dropped and
    discovery returns the empty list. -/
theorem discover_port_zero_cex :
    readTables wZ = Except.ok [(111, 0)] ∧
    memClaim wZ [(111, 0)] 5 0 = true ∧
    discover_servers wZ = Except.ok [] := by
  refine ⟨by rfl, by rfl, by rfl⟩

end HttpServer
